import Mathlib

/-!
Verification development for the sei-zkp-file-transfer contract.

The repository holds two near-duplicate CosmWasm contract variants:
src/src/lib.rs (the variant with Groth16 proof gating, embedded below in
namespace SeiZkp) and src/main/src/lib.rs (a variant without proofs and
without a balance check on withdrawal, embedded in SeiZkp.MainVariant).

Modelling conventions:
- Uint128 values are Nat together with explicit overflow checks at the
  operations where the Rust Uint128 arithmetic panics (checked multiply).
- A Rust panic (unwrap on Err or None, slice out of bounds, arithmetic
  overflow) is modelled as the value none of an Option result; the host
  aborts the transaction on a panic, so a panicking execute call leaves
  the stored state unchanged, exactly like an Err result.
- Byte strings (Vec of u8, byte slices) are lists of Nat, each entry a
  byte value below 256.
- The bellman Groth16 API and the bls12_381 scalar field are external
  library collaborators; they are modelled by an idealized semantics
  (perfect completeness and soundness, and binding of a proof to the CRS
  it was produced under) that is stated explicitly at each definition.
-/

namespace SeiZkp

/-! ## Idealized model of the bls12_381 scalar field and bellman Groth16 -/

/-- Order of the bls12_381 scalar field, the modulus used by
`bls12_381::Scalar`. -/
def q : Nat :=
  52435875175126190479447740508185965837690552500527637822603658699938581184513

/-- Little-endian value of a byte list, as computed by
`Scalar::from_bytes` on a 32-byte array. -/
def leVal (bs : List Nat) : Nat :=
  bs.foldr (fun b acc => b + 256 * acc) 0

/-- Embeds `Scalar::from_bytes`: interprets the bytes little-endian and
returns a scalar exactly when the value is a canonical encoding, that is
below the field order; otherwise the Rust caller's `.unwrap()` panics,
modelled by `none`. -/
def scalarFromBytes (bs : List Nat) : Option Nat :=
  if leVal bs < q then some (leVal bs) else none

/-- Idealized content of a Groth16 proof over Bls12: the CRS (setup
randomness) it was produced under, the two public inputs it commits to,
and whether the witness satisfied the circuit constraints. A real proof
is three curve points; this model keeps exactly the information the
idealized verification equation depends on. -/
structure G16Proof where
  crsSeed : Nat
  inputH : Nat
  inputR : Nat
  ok : Bool
deriving DecidableEq, Repr

/-- Little-endian byte encoding of a Nat, fixed width. -/
def natToLEBytes : Nat → Nat → List Nat
  | 0, _ => []
  | w + 1, v => v % 256 :: natToLEBytes w (v / 256)

/-- Serialization of a proof, as performed by `proof.write`: a Groth16
proof over Bls12 serializes to exactly 192 bytes. The concrete layout
here (95 seed bytes, one constraint flag byte, 48 bytes per public
input) is a modelling choice; only its length and its injectivity on
canonical values mirror the real encoding. -/
def encodeProof (p : G16Proof) : List Nat :=
  natToLEBytes 95 p.crsSeed ++ (if p.ok then 1 else 0) :: natToLEBytes 48 p.inputH
    ++ natToLEBytes 48 p.inputR

/-- Embeds `bellman::groth16::Proof::read`: fails (returns an error that
the contract then unwraps, panicking) on any blob that is not a
canonical 192-byte proof encoding — wrong length, a non-byte entry, or a
non-canonical group element encoding. -/
def proofRead (blob : List Nat) : Option G16Proof :=
  if blob.length = 192 ∧ ∀ b ∈ blob, b < 256 then
    let seed := leVal (blob.take 95)
    let okByte := (blob.drop 95).headD 0
    let h := leVal ((blob.drop 96).take 48)
    let r := leVal (blob.drop 144)
    if h < q ∧ r < q ∧ (okByte = 0 ∨ okByte = 1) then
      some { crsSeed := seed, inputH := h, inputR := r, ok := okByte = 1 }
    else none
  else none

/-- Idealized `create_random_proof` for FileTransferCircuit under
parameters generated from `crsSeed`: the resulting proof is bound to the
CRS and to the public inputs, and verifies iff the private witness
satisfied the single circuit constraint `secret = file_hash + recipient`
in the scalar field. -/
def g16Prove (crsSeed h r s : Nat) : G16Proof :=
  { crsSeed := crsSeed, inputH := h % q, inputR := r % q,
    ok := s % q = (h + r) % q }

/-- Idealized `verify_proof`: a proof is accepted under a verifying key
exactly when it was honestly produced under the same CRS, for exactly
these public inputs, from a satisfying witness. In reality acceptance
under a mismatched CRS is possible only with negligible probability;
the ideal model makes it impossible. -/
def g16Verify (crsSeed : Nat) (pf : G16Proof) (h r : Nat) : Bool :=
  pf.crsSeed == crsSeed && pf.ok && pf.inputH == h && pf.inputR == r

/-- Embeds `zk_proof::Proof::new` (src/src/lib.rs lines 91-120): runs
`generate_random_parameters` with fresh OS randomness (`setupSeed`),
decodes the three 32-byte arrays as scalars (each `.unwrap()` panics on
a non-canonical encoding, modelled by `none`), creates the proof and
serializes it. -/
def proofNew (setupSeed : Nat) (file_hash recipient secret : List Nat) :
    Option (List Nat) :=
  match scalarFromBytes file_hash, scalarFromBytes recipient,
      scalarFromBytes secret with
  | some h, some r, some s => some (encodeProof (g16Prove setupSeed h r s))
  | _, _, _ => none

/-- Embeds the public-input preparation in `Proof::verify`:
`Scalar::from_bytes(&bytes[..32].try_into().unwrap()).unwrap()`. The
slice `bytes[..32]` panics when the input has fewer than 32 bytes, and
`from_bytes(..).unwrap()` panics on a non-canonical encoding; both are
modelled by `none`. -/
def sliceScalar (bs : List Nat) : Option Nat :=
  if 32 ≤ bs.length then scalarFromBytes (bs.take 32) else none

/-- Embeds `zk_proof::Proof::verify` (src/src/lib.rs lines 122-144).
Faithful to the source, the verifying key is regenerated on every call
from fresh OS randomness (`freshSetupSeed`), independent of the
randomness used by `Proof::new` — lines 125-132 call
`generate_random_parameters` inside `verify`. The blob is decoded with
`Proof::read(..).unwrap()` and the public inputs with `sliceScalar`;
`none` models the panics of those unwraps. -/
def proofVerify (freshSetupSeed : Nat) (blob file_hash recipient : List Nat) :
    Option Bool :=
  match proofRead blob with
  | none => none
  | some pf =>
    match sliceScalar file_hash, sliceScalar recipient with
    | some h, some r => some (g16Verify freshSetupSeed pf h r)
    | _, _ => none

/-! ## Contract state and messages (src/src/lib.rs) -/

/-- Embeds `cosmwasm_std::Coin`: a denomination and a Uint128 amount. -/
structure Coin where
  denom : String
  amount : Nat
deriving DecidableEq, Repr

/-- Embeds the `FileTransfer` record stored in the ledger. -/
structure FileTransfer where
  file_hash : String
  sender : String
  recipient : String
  timestamp : Nat
  transfer_fee : Nat
deriving DecidableEq, Repr

/-- Embeds the contract `State`: the ledger aggregate. -/
structure State where
  file_transfers : List FileTransfer
  admin : String
  fee_percentage : Nat
deriving DecidableEq, Repr

/-- Embeds `ContractError` from src/src/lib.rs. -/
inductive ContractError where
  | Std (msg : String)
  | Unauthorized
  | InvalidProof
  | DuplicateTransfer
  | InsufficientFunds
deriving DecidableEq, Repr

/-- Embeds a `BankMsg::Send` instruction emitted in a Response. -/
structure BankSend where
  to_address : String
  denom : String
  amount : Nat
deriving DecidableEq, Repr

/-- One more than the largest Uint128 value; Uint128 multiplication
panics when the mathematical product reaches this bound. -/
def UINT128_LIMIT : Nat := 2 ^ 128

/-- Embeds `instantiate` (src/src/lib.rs lines 216-230): stores an empty
transfer list, the deploying sender as admin, and the requested fee
percentage. Note the source performs no range check on the fee here. -/
def instantiate (sender : String) (fee_percentage : Nat) : State :=
  { file_transfers := [], admin := sender, fee_percentage := fee_percentage }

/-- Embeds the duplicate check closure used at src/src/lib.rs line 263:
whether some stored transfer matches the pair. -/
def hasPair (s : State) (file_hash recipient : String) : Bool :=
  s.file_transfers.any fun t => t.file_hash == file_hash && t.recipient == recipient

/-- Embeds line 274: the first attached coin of denomination "usei", or
a default of zero when none is attached. -/
def findUseiAmount (funds : List Coin) : Nat :=
  (((funds.find? fun c => c.denom == "usei").map Coin.amount).getD 0)

/-- Embeds the fee computation of line 275,
`transfer_amount * state.fee_percentage / Uint128::new(10000)`: Uint128
multiplication panics on overflow (modelled by `none`); the division by
the constant 10000 floors. -/
def computeFee (amount rate : Nat) : Option Nat :=
  if amount * rate < UINT128_LIMIT then some (amount * rate / 10000) else none

/-- Constructor for the transfer appended at lines 277-283. -/
def mkTransfer (file_hash sender recipient : String) (timestamp transfer_fee : Nat) :
    FileTransfer :=
  { file_hash := file_hash, sender := sender, recipient := recipient,
    timestamp := timestamp, transfer_fee := transfer_fee }

/-- Embeds `record_transfer` (src/src/lib.rs lines 252-292). The `verify`
parameter is the proof-verification collaborator: the source calls
`proof.verify(file_hash.as_bytes(), recipient.as_bytes())`, which draws
fresh OS randomness; threading that call in as a function of the proof
blob and the two strings keeps the ledger logic deterministic while
`contractVerify` below instantiates it with the concrete pipeline. A
`none` result of `verify` models a panic inside verification, and a
`none` overall result models a panicking call (state unchanged, like an
error). -/
def record_transfer (verify : List Nat → String → String → Option Bool)
    (s : State) (env_time : Nat) (sender : String) (funds : List Coin)
    (file_hash recipient : String) (zk_proof : List Nat) :
    Option (Except ContractError State) :=
  if hasPair s file_hash recipient then
    some (.error .DuplicateTransfer)
  else
    match verify zk_proof file_hash recipient with
    | none => none
    | some ok =>
      if !ok then some (.error .InvalidProof)
      else
        match computeFee (findUseiAmount funds) s.fee_percentage with
        | none => none
        | some transfer_fee =>
          some (.ok { s with file_transfers := s.file_transfers ++
            [mkTransfer file_hash sender recipient env_time transfer_fee] })

/-- UTF-8 bytes of a string, as produced by `str::as_bytes`. -/
def stringBytes (s : String) : List Nat :=
  s.toUTF8.toList.map UInt8.toNat

/-- The concrete verification collaborator used by `record_transfer` in
the source: `Proof::verify` on the blob and the UTF-8 bytes of the two
strings, with the fresh setup randomness drawn inside `verify`. -/
def contractVerify (freshSetupSeed : Nat) :
    List Nat → String → String → Option Bool :=
  fun blob file_hash recipient =>
    proofVerify freshSetupSeed blob (stringBytes file_hash) (stringBytes recipient)

/-- Embeds `withdraw_fees` (src/src/lib.rs lines 295-323): admin check,
then the balance sufficiency check against the bank collaborator, then
one `BankMsg::Send` of the amount in "usei" to the caller. The stored
state is never written by this function. -/
def withdraw_fees (s : State) (sender : String) (contract_balance amount : Nat) :
    Except ContractError (List BankSend) :=
  if sender ≠ s.admin then .error .Unauthorized
  else if contract_balance < amount then .error .InsufficientFunds
  else .ok [{ to_address := sender, denom := "usei", amount := amount }]

/-- Embeds `set_fee_percentage` (src/src/lib.rs lines 326-348): admin
check, then the range check rejecting rates above 10000 basis points,
then the store. -/
def set_fee_percentage (s : State) (sender : String) (percentage : Nat) :
    Except ContractError State :=
  if sender ≠ s.admin then .error .Unauthorized
  else if 10000 < percentage then
    .error (.Std "Fee percentage must be between 0 and 10000 (100.00%)")
  else .ok { s with fee_percentage := percentage }

/-- Embeds `query_verify_transfer` (src/src/lib.rs lines 368-374). -/
def query_verify_transfer (s : State) (file_hash recipient : String) : Bool :=
  s.file_transfers.any fun t => t.file_hash == file_hash && t.recipient == recipient

/-- Embeds `query_file_transfers` (src/src/lib.rs lines 362-365). -/
def query_file_transfers (s : State) : List FileTransfer :=
  s.file_transfers

/-- Embeds `query_fee_percentage` (src/src/lib.rs lines 382-385). -/
def query_fee_percentage (s : State) : Nat :=
  s.fee_percentage

namespace MainVariant

/-- Embeds `withdraw_fees` from the second variant, src/main/src/lib.rs
lines 126-151: admin check, then — with no balance query and no
sufficiency check — one `BankMsg::Send` of the requested amount. Errors
are `StdError::generic_err` strings in this variant. -/
def withdraw_fees (s : State) (sender : String) (amount : Nat) :
    Except String (List BankSend) :=
  if sender ≠ s.admin then .error "Unauthorized"
  else .ok [{ to_address := sender, denom := "usei", amount := amount }]

end MainVariant

/-! ## Execution model: actions against the stored ledger -/

/-- One execute call against the contract, with its environment inputs:
the verification collaborator with its randomness already threaded, the
block time, the caller, the attached funds and the message fields, or
the bank balance observed during a withdrawal. -/
inductive Action where
  | record (verify : List Nat → String → String → Option Bool) (env_time : Nat)
      (sender : String) (funds : List Coin) (file_hash recipient : String)
      (zk_proof : List Nat)
  | withdraw (sender : String) (contract_balance amount : Nat)
  | setFee (sender : String) (percentage : Nat)

/-- State transition of one execute call: a successful call commits the
new state, while an error result or a panic leaves storage unchanged
(the host reverts the transaction). `withdraw_fees` never writes
storage. -/
def applyAction (s : State) : Action → State
  | .record verify env_time sender funds file_hash recipient zk_proof =>
    match record_transfer verify s env_time sender funds file_hash recipient zk_proof with
    | some (.ok s') => s'
    | _ => s
  | .withdraw _ _ _ => s
  | .setFee sender percentage =>
    match set_fee_percentage s sender percentage with
    | .ok s' => s'
    | .error _ => s

/-- Folds a list of execute calls over a starting state. -/
def runActions (s : State) (acts : List Action) : State :=
  acts.foldl applyAction s

/-- A ledger state is reachable when some instantiation followed by some
sequence of execute calls produces it. -/
def Reachable (s : State) : Prop :=
  ∃ deployer fee0 acts, runActions (instantiate deployer fee0) acts = s

/-- Pairwise distinctness of the (file_hash, recipient) keys in a stored
transfer list. -/
def DistinctPairs (l : List FileTransfer) : Prop :=
  l.Pairwise fun a b => ¬(a.file_hash = b.file_hash ∧ a.recipient = b.recipient)

/-- Whether an execute call is a RecordTransfer message for the given
pair. -/
def RecordsPair (a : Action) (file_hash recipient : String) : Prop :=
  match a with
  | .record _ _ _ _ fh rcp _ => fh = file_hash ∧ rcp = recipient
  | _ => False

/-! ## Concrete demonstration states shared by several theorems -/

/-- A verification collaborator that accepts every proof. -/
def oracleTrue : List Nat → String → String → Option Bool :=
  fun _ _ _ => some true

/-- A verification collaborator that rejects every proof. -/
def oracleFalse : List Nat → String → String → Option Bool :=
  fun _ _ _ => some false

/-- A recording call used to build a small reachable state. -/
def demoAct : Action :=
  .record oracleTrue 5 "alice" [] "fh" "bob" []

/-- The state after instantiation by "alice" at rate 0 and one recorded
transfer of "fh" to "bob". -/
def demoS1 : State :=
  { file_transfers := [mkTransfer "fh" "alice" "bob" 5 0],
    admin := "alice", fee_percentage := 0 }

theorem demoS1_reachable : Reachable demoS1 :=
  ⟨"alice", 0, [demoAct], by decide⟩

/-! ## Inversion lemmas for the execute handlers -/

theorem record_transfer_eq_ok {verify : List Nat → String → String → Option Bool}
    {s : State} {env_time : Nat} {sender : String} {funds : List Coin}
    {file_hash recipient : String} {zk_proof : List Nat} {s' : State} :
    record_transfer verify s env_time sender funds file_hash recipient zk_proof
        = some (.ok s') ↔
      hasPair s file_hash recipient = false ∧
      verify zk_proof file_hash recipient = some true ∧
      ∃ fee, computeFee (findUseiAmount funds) s.fee_percentage = some fee ∧
        s' = { s with file_transfers := s.file_transfers ++
          [mkTransfer file_hash sender recipient env_time fee] } := by
  unfold record_transfer
  cases hdup : hasPair s file_hash recipient with
  | true => simp
  | false =>
    cases hv : verify zk_proof file_hash recipient with
    | none => simp
    | some b =>
      cases b with
      | false => simp
      | true =>
        cases hcf : computeFee (findUseiAmount funds) s.fee_percentage with
        | none => simp
        | some fee =>
          simp [eq_comm]

theorem record_transfer_of_hasPair {verify : List Nat → String → String → Option Bool}
    {s : State} {env_time : Nat} {sender : String} {funds : List Coin}
    {file_hash recipient : String} {zk_proof : List Nat}
    (h : hasPair s file_hash recipient = true) :
    record_transfer verify s env_time sender funds file_hash recipient zk_proof
      = some (.error .DuplicateTransfer) := by
  unfold record_transfer
  simp [h]

theorem set_fee_percentage_eq_ok {s : State} {sender : String} {percentage : Nat}
    {s' : State} :
    set_fee_percentage s sender percentage = .ok s' ↔
      sender = s.admin ∧ percentage ≤ 10000 ∧
      s' = { s with fee_percentage := percentage } := by
  unfold set_fee_percentage
  by_cases hadm : sender = s.admin
  · by_cases hp : 10000 < percentage
    · simp [hadm, hp, Nat.not_le_of_lt hp]
    · simp [hadm, hp, Nat.le_of_not_lt hp, eq_comm]
  · simp [hadm]

theorem hasPair_eq_false_iff {s : State} {file_hash recipient : String} :
    hasPair s file_hash recipient = false ↔
      ∀ t ∈ s.file_transfers, ¬(t.file_hash = file_hash ∧ t.recipient = recipient) := by
  unfold hasPair
  simp [List.any_eq_true, not_and]

theorem hasPair_append {s : State} {l : List FileTransfer} {file_hash recipient : String} :
    hasPair { s with file_transfers := s.file_transfers ++ l } file_hash recipient
      = (hasPair s file_hash recipient ||
          l.any fun t => t.file_hash == file_hash && t.recipient == recipient) := by
  unfold hasPair
  simp [List.any_append]

/-! ## Structural facts about one execute step -/

theorem applyAction_record_eq (verify : List Nat → String → String → Option Bool)
    (s : State) (env_time : Nat) (sender : String) (funds : List Coin)
    (file_hash recipient : String) (zk_proof : List Nat) :
    applyAction s (.record verify env_time sender funds file_hash recipient zk_proof)
      = s ∨
    ∃ fee, hasPair s file_hash recipient = false ∧
      computeFee (findUseiAmount funds) s.fee_percentage = some fee ∧
      applyAction s (.record verify env_time sender funds file_hash recipient zk_proof)
        = { s with file_transfers := s.file_transfers ++
            [mkTransfer file_hash sender recipient env_time fee] } := by
  cases hres : record_transfer verify s env_time sender funds file_hash recipient zk_proof with
  | none => exact Or.inl (by simp [applyAction, hres])
  | some r =>
    cases r with
    | error e => exact Or.inl (by simp [applyAction, hres])
    | ok s' =>
      rcases record_transfer_eq_ok.mp hres with ⟨hdup, _, fee, hfee, hs'⟩
      exact Or.inr ⟨fee, hdup, hfee, by simp [applyAction, hres, hs']⟩

theorem applyAction_setFee_eq (s : State) (sender : String) (percentage : Nat) :
    applyAction s (.setFee sender percentage) = s ∨
    (percentage ≤ 10000 ∧
      applyAction s (.setFee sender percentage)
        = { s with fee_percentage := percentage }) := by
  cases hres : set_fee_percentage s sender percentage with
  | error e => exact Or.inl (by simp [applyAction, hres])
  | ok s' =>
    rcases set_fee_percentage_eq_ok.mp hres with ⟨_, hle, hs'⟩
    exact Or.inr ⟨hle, by simp [applyAction, hres, hs']⟩

theorem applyAction_transfers (s : State) (a : Action) :
    ∃ l, (applyAction s a).file_transfers = s.file_transfers ++ l := by
  cases a with
  | record verify env_time sender funds file_hash recipient zk_proof =>
    rcases applyAction_record_eq verify s env_time sender funds file_hash recipient zk_proof
      with h | ⟨fee, _, _, h⟩
    · exact ⟨[], by simp [h]⟩
    · exact ⟨[mkTransfer file_hash sender recipient env_time fee], by simp [h]⟩
  | withdraw sender contract_balance amount => exact ⟨[], by simp [applyAction]⟩
  | setFee sender percentage =>
    rcases applyAction_setFee_eq s sender percentage with h | ⟨_, h⟩
    · exact ⟨[], by simp [h]⟩
    · exact ⟨[], by simp [h]⟩

/-- Invariant combinator: a property preserved by every single execute
step holds after any sequence of steps. -/
theorem runActions_inv (P : State → Prop)
    (hstep : ∀ s a, P s → P (applyAction s a)) :
    ∀ acts s, P s → P (runActions s acts) := by
  intro acts
  induction acts with
  | nil => intro s h; exact h
  | cons a rest ih =>
    intro s h
    exact ih (applyAction s a) (hstep s a h)

theorem hasPair_mono {file_hash recipient : String} (s : State) (a : Action)
    (h : hasPair s file_hash recipient = true) :
    hasPair (applyAction s a) file_hash recipient = true := by
  rcases applyAction_transfers s a with ⟨l, hl⟩
  unfold hasPair at h ⊢
  rw [hl, List.any_append, h, Bool.true_or]

theorem hasPair_runActions {file_hash recipient : String} (s : State) (acts : List Action)
    (h : hasPair s file_hash recipient = true) :
    hasPair (runActions s acts) file_hash recipient = true :=
  runActions_inv (fun s => hasPair s file_hash recipient = true)
    (fun s a => hasPair_mono s a) acts s h

theorem distinctPairs_applyAction (s : State) (a : Action)
    (h : DistinctPairs s.file_transfers) :
    DistinctPairs (applyAction s a).file_transfers := by
  cases a with
  | record verify env_time sender funds file_hash recipient zk_proof =>
    rcases applyAction_record_eq verify s env_time sender funds file_hash recipient zk_proof
      with heq | ⟨fee, hdup, _, heq⟩
    · rw [heq]; exact h
    · rw [heq]
      refine List.pairwise_append.mpr ⟨h, List.pairwise_singleton _ _, ?_⟩
      intro t ht t' ht'
      simp only [List.mem_singleton] at ht'
      subst ht'
      have := hasPair_eq_false_iff.mp hdup t ht
      simpa [mkTransfer] using this
  | withdraw sender contract_balance amount => simpa [applyAction] using h
  | setFee sender percentage =>
    rcases applyAction_setFee_eq s sender percentage with heq | ⟨_, heq⟩
    · rw [heq]; exact h
    · rw [heq]; exact h

theorem feeBound_applyAction (s : State) (a : Action)
    (h : s.fee_percentage ≤ 10000) : (applyAction s a).fee_percentage ≤ 10000 := by
  cases a with
  | record verify env_time sender funds file_hash recipient zk_proof =>
    rcases applyAction_record_eq verify s env_time sender funds file_hash recipient zk_proof
      with heq | ⟨fee, _, _, heq⟩
    · rw [heq]; exact h
    · rw [heq]; exact h
  | withdraw sender contract_balance amount => simpa [applyAction] using h
  | setFee sender percentage =>
    rcases applyAction_setFee_eq s sender percentage with heq | ⟨hle, heq⟩
    · rw [heq]; exact h
    · rw [heq]; exact hle

theorem hasPair_false_applyAction {file_hash recipient : String} (s : State) (a : Action)
    (h : hasPair s file_hash recipient = false)
    (hno : ¬ RecordsPair a file_hash recipient) :
    hasPair (applyAction s a) file_hash recipient = false := by
  cases a with
  | record verify env_time sender funds fh rcp zk_proof =>
    rcases applyAction_record_eq verify s env_time sender funds fh rcp zk_proof
      with heq | ⟨fee, _, _, heq⟩
    · rw [heq]; exact h
    · rw [heq]
      have hpair : ¬(fh = file_hash ∧ rcp = recipient) := by
        simpa [RecordsPair] using hno
      rw [hasPair_append]
      simp only [h, Bool.false_or, List.any_cons, List.any_nil, Bool.or_false]
      simp only [mkTransfer, Bool.and_eq_true, beq_iff_eq, Bool.and_eq_false_iff]
      by_cases hfh : fh = file_hash
      · exact Or.inr (by simpa [hfh] using fun hr => hpair ⟨hfh, hr⟩)
      · exact Or.inl (by simpa using hfh)
  | withdraw sender contract_balance amount => simpa [applyAction] using h
  | setFee sender percentage =>
    rcases applyAction_setFee_eq s sender percentage with heq | ⟨_, heq⟩
    · rw [heq]; exact h
    · rw [heq]; exact h

theorem hasPair_false_runActions {file_hash recipient : String} (acts : List Action) :
    ∀ s, hasPair s file_hash recipient = false →
      (∀ a ∈ acts, ¬ RecordsPair a file_hash recipient) →
      hasPair (runActions s acts) file_hash recipient = false := by
  induction acts with
  | nil => intro s h _; exact h
  | cons a rest ih =>
    intro s h hno
    exact ih (applyAction s a)
      (hasPair_false_applyAction s a h (hno a (by simp)))
      (fun a' ha' => hno a' (by simp [ha']))

/-! ## Claim theorems -/

/-- C3: in every reachable ledger state the (file_hash, recipient) keys
of the stored transfers are pairwise distinct; once a pair is recorded
it stays recorded after any further sequence of execute calls, and any
later recordTransfer for that pair returns DuplicateTransfer — whatever
its proof and the verification outcome — and leaves the state
unchanged. -/
theorem c3_uniqueness (s : State) (hs : Reachable s) :
    DistinctPairs s.file_transfers ∧
    ∀ file_hash recipient acts verify env_time sender funds zk_proof,
      hasPair s file_hash recipient = true →
      record_transfer verify (runActions s acts) env_time sender funds
          file_hash recipient zk_proof
        = some (.error .DuplicateTransfer) ∧
      applyAction (runActions s acts)
          (.record verify env_time sender funds file_hash recipient zk_proof)
        = runActions s acts := by
  constructor
  · rcases hs with ⟨deployer, fee0, acts, rfl⟩
    exact runActions_inv (fun s => DistinctPairs s.file_transfers)
      distinctPairs_applyAction acts _ (by simp [instantiate, DistinctPairs])
  · intro file_hash recipient acts verify env_time sender funds zk_proof hp
    have hp' := hasPair_runActions s acts hp
    have hrec : record_transfer verify (runActions s acts) env_time sender funds
        file_hash recipient zk_proof = some (.error .DuplicateTransfer) :=
      record_transfer_of_hasPair hp'
    exact ⟨hrec, by simp [applyAction, hrec]⟩

theorem c3_uniqueness_witness :
    record_transfer oracleFalse demoS1 6 "eve" [] "fh" "bob" []
      = some (.error .DuplicateTransfer) :=
  ((c3_uniqueness demoS1 demoS1_reachable).2 "fh" "bob" [] oracleFalse 6 "eve" [] []
    (by decide)).1

/-- C4 (amended): the stored fee rate is a Uint128, hence never
negative; setFeePercentage only ever stores a rate of at most 10000; and
every state reachable from an instantiation whose initial rate is at
most 10000 keeps the rate at most 10000. The source performs no range
check inside instantiate itself, so the bound is an invariant only under
that assumption on the deployment message (see the counterexample). -/
theorem c4_fee_rate_bound (deployer : String) (fee0 : Nat) (h0 : fee0 ≤ 10000)
    (acts : List Action) :
    (runActions (instantiate deployer fee0) acts).fee_percentage ≤ 10000 ∧
    ∀ s sender percentage s',
      set_fee_percentage s sender percentage = .ok s' →
      s'.fee_percentage ≤ 10000 := by
  constructor
  · exact runActions_inv (fun s => s.fee_percentage ≤ 10000) feeBound_applyAction acts _ h0
  · intro s sender percentage s' hok
    rcases set_fee_percentage_eq_ok.mp hok with ⟨_, hle, rfl⟩
    exact hle

theorem c4_fee_rate_bound_witness :
    (runActions (instantiate "alice" 0) []).fee_percentage ≤ 10000 :=
  (c4_fee_rate_bound "alice" 0 (by decide) []).1

/-- C4 counterexample: instantiation stores the requested fee rate with
no range check, so the state produced by instantiate with rate 10001 is
reachable and violates the claimed bound. -/
theorem c4_instantiate_unchecked :
    Reachable (instantiate "alice" 10001) ∧
    ¬(instantiate "alice" 10001).fee_percentage ≤ 10000 :=
  ⟨⟨"alice", 10001, [], rfl⟩, by decide⟩

/-- C9: verifyTransfer returns false on a freshly instantiated (empty)
ledger; it stays false after any sequence of execute calls none of which
is a RecordTransfer message for the pair; and it returns true on the
state produced by any successful recordTransfer of the pair. -/
theorem c9_membership (deployer : String) (fee0 : Nat) (file_hash recipient : String)
    (acts : List Action)
    (hno : ∀ a ∈ acts, ¬ RecordsPair a file_hash recipient) :
    query_verify_transfer (instantiate deployer fee0) file_hash recipient = false ∧
    query_verify_transfer (runActions (instantiate deployer fee0) acts)
        file_hash recipient = false ∧
    ∀ verify s env_time sender funds zk_proof s',
      record_transfer verify s env_time sender funds file_hash recipient zk_proof
        = some (.ok s') →
      query_verify_transfer s' file_hash recipient = true := by
  refine ⟨rfl, ?_, ?_⟩
  · exact hasPair_false_runActions acts _ rfl hno
  · intro verify s env_time sender funds zk_proof s' hok
    rcases record_transfer_eq_ok.mp hok with ⟨_, _, fee, _, rfl⟩
    show hasPair _ _ _ = true
    rw [hasPair_append]
    simp [mkTransfer]

theorem c9_membership_witness :
    query_verify_transfer (runActions (instantiate "alice" 0) [.setFee "alice" 30])
        "fh" "bob" = false :=
  (c9_membership "alice" 0 "fh" "bob" [.setFee "alice" 30]
    (by intro a ha; simp only [List.mem_singleton] at ha; subst ha;
        simp [RecordsPair])).2.1

/-- C1 (amended): when the verification collaborator rejects the proof
and the pair is not already recorded, recordTransfer appends nothing and
returns InvalidProof; when the pair is already recorded the duplicate
check fires first, so the call returns DuplicateTransfer — not
InvalidProof — and still appends nothing; when the collaborator accepts
the proof, the pair is fresh and the Uint128 fee multiplication does not
overflow, exactly one Transfer is appended. -/
theorem c1_proof_gating (verify : List Nat → String → String → Option Bool)
    (s : State) (env_time : Nat) (sender : String) (funds : List Coin)
    (file_hash recipient : String) (zk_proof : List Nat) :
    (hasPair s file_hash recipient = false →
      verify zk_proof file_hash recipient = some false →
      record_transfer verify s env_time sender funds file_hash recipient zk_proof
          = some (.error .InvalidProof) ∧
      applyAction s (.record verify env_time sender funds file_hash recipient zk_proof)
        = s) ∧
    (hasPair s file_hash recipient = true →
      record_transfer verify s env_time sender funds file_hash recipient zk_proof
          = some (.error .DuplicateTransfer) ∧
      applyAction s (.record verify env_time sender funds file_hash recipient zk_proof)
        = s) ∧
    (hasPair s file_hash recipient = false →
      verify zk_proof file_hash recipient = some true →
      ∀ fee, computeFee (findUseiAmount funds) s.fee_percentage = some fee →
        record_transfer verify s env_time sender funds file_hash recipient zk_proof
          = some (.ok { s with file_transfers := s.file_transfers ++
              [mkTransfer file_hash sender recipient env_time fee] })) := by
  refine ⟨?_, ?_, ?_⟩
  · intro hdup hv
    have hrec : record_transfer verify s env_time sender funds file_hash recipient zk_proof
        = some (.error .InvalidProof) := by
      unfold record_transfer
      simp [hdup, hv]
    exact ⟨hrec, by simp [applyAction, hrec]⟩
  · intro hdup
    have hrec : record_transfer verify s env_time sender funds file_hash recipient zk_proof
        = some (.error .DuplicateTransfer) := record_transfer_of_hasPair hdup
    exact ⟨hrec, by simp [applyAction, hrec]⟩
  · intro hdup hv fee hfee
    exact record_transfer_eq_ok.mpr ⟨hdup, hv, fee, hfee, rfl⟩

theorem c1_proof_gating_witness :
    record_transfer oracleFalse (instantiate "alice" 0) 5 "alice" [] "fh" "bob" []
      = some (.error .InvalidProof) :=
  ((c1_proof_gating oracleFalse (instantiate "alice" 0) 5 "alice" [] "fh" "bob" []).1
    (by decide) (by decide)).1

/-- C1 counterexample: a reachable state already holding the pair
("fh", "bob"); a recordTransfer for that pair whose proof the
verification collaborator rejects returns DuplicateTransfer, not
InvalidProof — the duplicate check at src/src/lib.rs lines 262-265 runs
before the proof check at lines 267-271 — refuting the claim that every
call whose proof fails verification returns InvalidProof. -/
theorem c1_duplicate_precedes_proof :
    Reachable demoS1 ∧
    oracleFalse [] "fh" "bob" = some false ∧
    record_transfer oracleFalse demoS1 7 "carol" [] "fh" "bob" []
      = some (.error .DuplicateTransfer) ∧
    record_transfer oracleFalse demoS1 7 "carol" [] "fh" "bob" []
      ≠ some (.error .InvalidProof) :=
  ⟨demoS1_reachable, rfl, rfl, fun h =>
    absurd (Except.error.inj (Option.some.inj h)) (by decide)⟩

/-- C5 (amended): whenever the mathematical product of the amount and
the basis-point rate fits in a Uint128, the computed fee is exactly
floor(amount * rate / 10000) in exact integer arithmetic; the three
concrete values of the claim hold; and every successful recordTransfer
appends exactly the fee so computed from the attached usei amount.
On overflow of the product the Uint128 multiplication panics instead
(see the counterexample). -/
theorem c5_fee_arithmetic (amount rate : Nat) (_hrate : rate ≤ 10000)
    (hnovf : amount * rate < UINT128_LIMIT) :
    computeFee amount rate = some (amount * rate / 10000) ∧
    computeFee 1000000 250 = some 25000 ∧
    computeFee 1000000 0 = some 0 ∧
    computeFee 3 10000 = some 3 ∧
    ∀ verify s env_time sender funds file_hash recipient zk_proof s',
      record_transfer verify s env_time sender funds file_hash recipient zk_proof
        = some (.ok s') →
      ∃ fee, computeFee (findUseiAmount funds) s.fee_percentage = some fee ∧
        s'.file_transfers = s.file_transfers
          ++ [mkTransfer file_hash sender recipient env_time fee] := by
  refine ⟨by simp [computeFee, hnovf], by decide, by decide, by decide, ?_⟩
  intro verify s env_time sender funds file_hash recipient zk_proof s' hok
  rcases record_transfer_eq_ok.mp hok with ⟨_, _, fee, hfee, rfl⟩
  exact ⟨fee, hfee, rfl⟩

theorem c5_fee_arithmetic_witness :
    computeFee 1000000 250 = some 25000 :=
  (c5_fee_arithmetic 1000000 250 (by decide) (by decide)).2.1

/-- C5 counterexample: at amount 2^128 - 1 (a representable Uint128
coin amount) and rate 2 basis points, the product overflows u128, the
Uint128 multiplication panics, and no fee equal to the floored quotient
is produced, refuting the claim for every non-negative amount. -/
theorem c5_overflow_panics :
    computeFee (UINT128_LIMIT - 1) 2 = none ∧
    computeFee (UINT128_LIMIT - 1) 2 ≠ some ((UINT128_LIMIT - 1) * 2 / 10000) := by
  constructor <;> decide

/-- C6: a caller different from the stored admin always receives
Unauthorized from both withdrawFees and setFeePercentage, and the
stored ledger state is unchanged by either call. -/
theorem c6_authorization (s : State) (sender : String) (hne : sender ≠ s.admin)
    (contract_balance amount percentage : Nat) :
    withdraw_fees s sender contract_balance amount = .error .Unauthorized ∧
    set_fee_percentage s sender percentage = .error .Unauthorized ∧
    applyAction s (.withdraw sender contract_balance amount) = s ∧
    applyAction s (.setFee sender percentage) = s := by
  have hw : withdraw_fees s sender contract_balance amount = .error .Unauthorized := by
    unfold withdraw_fees
    simp [hne]
  have hsf : set_fee_percentage s sender percentage = .error .Unauthorized := by
    unfold set_fee_percentage
    simp [hne]
  exact ⟨hw, hsf, rfl, by simp [applyAction, hsf]⟩

theorem c6_authorization_witness :
    withdraw_fees (instantiate "alice" 0) "mallory" 1000 10 = .error .Unauthorized :=
  (c6_authorization (instantiate "alice" 0) "mallory" (by decide) 1000 10 5).1

/-- C7 (code_bug evidence): in the src/main/src/lib.rs variant, an
admin withdrawal of 100 usei succeeds and emits the outbound bank send
even though that variant never queries the balance — the contract may
hold nothing — while the src/src/lib.rs variant rejects the same
request against a zero balance with InsufficientFunds. -/
theorem c7_main_variant_no_balance_check :
    MainVariant.withdraw_fees (instantiate "alice" 0) "alice" 100
      = .ok [{ to_address := "alice", denom := "usei", amount := 100 }] ∧
    withdraw_fees (instantiate "alice" 0) "alice" 0 100
      = .error .InsufficientFunds :=
  ⟨rfl, rfl⟩

theorem find?_eq_head?_filter (p : Coin → Bool) (l : List Coin) :
    l.find? p = (l.filter p).head? := by
  induction l with
  | nil => rfl
  | cons c t ih =>
    by_cases h : p c = true
    · rw [List.find?_cons_of_pos _ h, List.filter_cons_of_pos h, List.head?_cons]
    · rw [List.find?_cons_of_neg _ h, List.filter_cons_of_neg h, ih]

/-- C10: every successful recordTransfer appends exactly one Transfer
whose fee is computed from the first attached coin of denomination
"usei"; when no usei coin is attached the amount is zero and the
recorded transfer_fee is zero whatever other denominations are
attached; and when the usei coins among the funds are exactly one coin
of amount a, the amount used is a. -/
theorem c10_usei_denomination (verify : List Nat → String → String → Option Bool)
    (s : State) (env_time : Nat) (sender : String) (funds : List Coin)
    (file_hash recipient : String) (zk_proof : List Nat) (s' : State)
    (hok : record_transfer verify s env_time sender funds file_hash recipient zk_proof
        = some (.ok s')) :
    (∃ fee, computeFee (findUseiAmount funds) s.fee_percentage = some fee ∧
      s'.file_transfers = s.file_transfers
        ++ [mkTransfer file_hash sender recipient env_time fee]) ∧
    ((∀ c ∈ funds, c.denom ≠ "usei") →
      findUseiAmount funds = 0 ∧
      s'.file_transfers = s.file_transfers
        ++ [mkTransfer file_hash sender recipient env_time 0]) ∧
    ∀ a, funds.filter (fun c => c.denom == "usei")
        = [{ denom := "usei", amount := a }] →
      findUseiAmount funds = a := by
  rcases record_transfer_eq_ok.mp hok with ⟨hdup, hv, fee, hfee, rfl⟩
  refine ⟨⟨fee, hfee, rfl⟩, ?_, ?_⟩
  · intro hnone
    have hfind : funds.find? (fun c => c.denom == "usei") = none := by
      rw [List.find?_eq_none]
      intro c hc
      simpa using hnone c hc
    have hz : findUseiAmount funds = 0 := by
      simp [findUseiAmount, hfind]
    have hfee0 : fee = 0 := by
      rw [hz] at hfee
      have h0 : computeFee 0 s.fee_percentage = some 0 := by
        unfold computeFee
        norm_num [UINT128_LIMIT]
      rw [h0] at hfee
      exact (Option.some.inj hfee).symm
    subst hfee0
    exact ⟨hz, rfl⟩
  · intro a hfilter
    have hfind : funds.find? (fun c => c.denom == "usei")
        = some { denom := "usei", amount := a } := by
      rw [find?_eq_head?_filter, hfilter]
      rfl
    simp [findUseiAmount, hfind]

theorem c10_usei_denomination_witness :
    findUseiAmount [{ denom := "uatom", amount := 5 }, { denom := "usei", amount := 20000 }]
      = 20000 :=
  (c10_usei_denomination oracleTrue (instantiate "alice" 250) 5 "alice"
      [{ denom := "uatom", amount := 5 }, { denom := "usei", amount := 20000 }]
      "fh" "bob" []
      { file_transfers := [mkTransfer "fh" "alice" "bob" 5 500],
        admin := "alice", fee_percentage := 250 }
      rfl).2.2 20000 (by decide)

set_option maxRecDepth 16000 in
/-- C2 (code_bug evidence): the witness bytes encode the scalars 1, 2
and 3, which satisfy the circuit relation secret = file_hash + recipient
in the field. A proof produced by Proof::new under setup randomness 0
verifies under a verifying key derived from the same randomness, but
Proof::verify regenerates parameters from fresh randomness (here 1), and
under that independently generated key the honest proof is rejected:
the prove-then-verify round trip of the source returns false. -/
theorem c2_crs_mismatch_breaks_verify :
    (3 : Nat) % q = (1 + 2) % q ∧
    (proofNew 0 (natToLEBytes 32 1) (natToLEBytes 32 2) (natToLEBytes 32 3)).bind
        (fun blob => proofVerify 0 blob (natToLEBytes 32 1) (natToLEBytes 32 2))
      = some true ∧
    (proofNew 0 (natToLEBytes 32 1) (natToLEBytes 32 2) (natToLEBytes 32 3)).bind
        (fun blob => proofVerify 1 blob (natToLEBytes 32 1) (natToLEBytes 32 2))
      = some false := by
  refine ⟨by decide, by decide, by decide⟩

/-- C8 counterexample: the empty byte blob is structurally invalid
(length 0, not 192), and Proof::read(..).unwrap() panics on it —
modelled by the none result — so verify raises instead of returning
false, refuting the claim that verification is total and returns false
on invalid blobs. -/
theorem c8_invalid_blob_panics :
    proofVerify 0 [] (natToLEBytes 32 1) (natToLEBytes 32 2) = none ∧
    proofVerify 0 [] (natToLEBytes 32 1) (natToLEBytes 32 2) ≠ some false := by
  constructor
  · rfl
  · intro h
    exact Option.noConfusion h

/-- C8 (amended): verify is not a total boolean function: on any blob
whose length differs from 192 the proof decoding panics and the call
aborts (modelled by none) instead of returning false; only when the blob
decodes as a well-formed proof and both public inputs decode as
canonical scalars does verify return a boolean, namely the idealized
pairing check under the freshly regenerated key. -/
theorem c8_verify_totality (seed : Nat) (blob fhB rB : List Nat) :
    (blob.length ≠ 192 → proofVerify seed blob fhB rB = none) ∧
    ∀ pf h r, proofRead blob = some pf → sliceScalar fhB = some h →
      sliceScalar rB = some r →
      proofVerify seed blob fhB rB = some (g16Verify seed pf h r) := by
  constructor
  · intro hlen
    have hread : proofRead blob = none := by
      unfold proofRead
      exact if_neg (fun hc => hlen hc.1)
    unfold proofVerify
    rw [hread]
  · intro pf h r hread hfh hrb
    unfold proofVerify
    rw [hread, hfh, hrb]

theorem c8_verify_totality_witness :
    proofVerify 0 [] [] [] = none :=
  (c8_verify_totality 0 [] [] []).1 (by decide)

end SeiZkp
